import Mathlib

/-!
Shallow embedding of `spyder_kernels/console/shell.py` (class `SpyderShell`).

Python objects are modelled by identifiers (`Nat`) into explicit heaps held in
a `ShellState`; Python `dict`s are association lists (`List (String × Nat)`,
values abstracted to `Nat`); Python object identity (`==`/`!=` between session
objects, which have no custom `__eq__`) is equality of identifiers.  The
namespace stack `self._namespace_stack` is a `List Nat` of session identifiers
with the top of the stack at the END of the list, matching Python list
`append`/`pop`/`[-1]`.
-/

/-- Association-list lookup: first binding wins (Python dict has unique keys,
so under `NodupKeys` this is the dict lookup). -/
def alookup {κ β : Type} [DecidableEq κ] : List (κ × β) → κ → Option β
  | [], _ => none
  | (k, v) :: rest, k0 => if k = k0 then some v else alookup rest k0

/-- Association-list insert mirroring Python `d[k] = v`: replace the binding in
place if the key exists, else append at the end (dict insertion order). -/
def ainsert {κ β : Type} [DecidableEq κ] : List (κ × β) → κ → β → List (κ × β)
  | [], k0, v0 => [(k0, v0)]
  | (k, v) :: rest, k0, v0 =>
    if k = k0 then (k0, v0) :: rest else (k, v) :: ainsert rest k0 v0

/-- Modify the first binding of a key, if present. -/
def amodify {κ β : Type} [DecidableEq κ] : List (κ × β) → κ → (β → β) → List (κ × β)
  | [], _, _ => []
  | (k, v) :: rest, k0, f =>
    if k = k0 then (k, f v) :: rest else (k, v) :: amodify rest k0 f

/-- The keys of the association list are distinct (true of every Python dict). -/
def NodupKeys {κ β : Type} (d : List (κ × β)) : Prop := (d.map Prod.fst).Nodup

instance {κ β : Type} [DecidableEq κ] (d : List (κ × β)) :
    Decidable (NodupKeys d) := by
  unfold NodupKeys
  infer_instance

/-- Left-biased choice on `Option`; `oalt a b` is `a` unless `a` is `none`. -/
def oalt {β : Type} : Option β → Option β → Option β
  | some v, _ => some v
  | none, b => b

/-- A Python dict with string keys and abstract values. -/
abbrev Dict := List (String × Nat)

/-- Python `d.update(e)`: insert every binding of `e` into `d`, in order. -/
def dupdate (d e : Dict) : Dict := e.foldl (fun acc kv => ainsert acc kv.1 kv.2) d

/-- A Python execution frame: an identity plus the identifiers of the
namespaces `f_globals` and `f_locals` reference. -/
structure Frame where
  fid : Nat
  f_globals : Nat
  f_locals : Nat
deriving DecidableEq

/-- The fields of a `SpyderPdb` debugger session that `shell.py` reads or
writes: `curframe`, `curframe_locals`, `interrupting`, `allow_kbdint`, and the
attributes set through `setattr` for the PDB configuration keys. -/
structure PdbState where
  curframe : Option Frame
  curframe_locals : Nat
  interrupting : Bool
  allow_kbdint : Bool
  conf : Dict
deriving DecidableEq

/-- The fields of a `NamespaceManager` session that `shell.py` reads. -/
structure NsState where
  ns_globals : Nat
  ns_locals : Nat
deriving DecidableEq

/-- A session object on the namespace stack: `isinstance(session, SpyderPdb)`
versus `isinstance(session, NamespaceManager)` becomes the constructor tag. -/
inductive SessObj : Type
  | pdb (p : PdbState)
  | nsmgr (m : NsState)
deriving DecidableEq

/-- The mutable state of a `SpyderShell` that the claims touch. -/
structure ShellState where
  /-- Python `self._namespace_stack`, as session identifiers, top at the END. -/
  namespace_stack : List Nat
  /-- The live session objects, by identifier. -/
  heap : List (Nat × SessObj)
  /-- The live namespace dicts, by identifier. -/
  nsheap : List (Nat × Dict)
  /-- Python `self._request_pdb_stop`. -/
  request_pdb_stop : Bool
  /-- Python `self._allow_kbdint`. -/
  allow_kbdint : Bool
  /-- Python `self._pdb_conf`. -/
  pdb_conf : Dict
  /-- Python `self.__user_ns`, the persistent fallback user namespace (identifier). -/
  userNsFallback : Nat
  /-- Python `self.magics_manager.magics` for line magics, as a dict. -/
  magics_line : Dict
  /-- Python `self.magics_manager.magics` for cell magics, as a dict. -/
  magics_cell : Dict
  /-- Next fresh identifier for a constructed object. -/
  next_id : Nat
deriving DecidableEq

namespace SpyderShell

/-- Source `SpyderShell.PDB_CONF_KEYS`. -/
def PDB_CONF_KEYS : List String :=
  ["pdb_ignore_lib", "pdb_execute_events", "pdb_use_exclamation_mark",
   "pdb_stop_first_line", "breakpoints", "pdb_publish_stack"]

/-- The scan inside the `pdb_session` property: first session from the top of
the stack (list reversed) that is a `SpyderPdb`. -/
def findPdb (heap : List (Nat × SessObj)) : List Nat → Option (Nat × PdbState)
  | [] => none
  | i :: rest =>
    match alookup heap i with
    | some (SessObj.pdb p) => some (i, p)
    | _ => findPdb heap rest

/-- Source `SpyderShell.pdb_session`, returning the session object as well. -/
def pdbSessionFull (st : ShellState) : Option (Nat × PdbState) :=
  findPdb st.heap st.namespace_stack.reverse

/-- Source `SpyderShell.pdb_session` as an identifier (object identity). -/
def pdb_session (st : ShellState) : Option Nat :=
  (pdbSessionFull st).map Prod.fst

/-- The scan inside the `user_ns` property: from the top of the stack, return
the frame globals of a `SpyderPdb` whose `curframe` is not `None`, or the
`ns_globals` of a `NamespaceManager`; a frameless `SpyderPdb` is skipped. -/
def userNsScan (heap : List (Nat × SessObj)) : List Nat → Option Nat
  | [] => none
  | i :: rest =>
    match alookup heap i with
    | some (SessObj.pdb p) =>
      match p.curframe with
      | some cf => some cf.f_globals
      | none => userNsScan heap rest
    | some (SessObj.nsmgr m) => some m.ns_globals
    | none => userNsScan heap rest

/-- Source `SpyderShell.user_ns` (getter): the identifier of the active namespace. -/
def user_ns (st : ShellState) : Nat :=
  match userNsScan st.heap st.namespace_stack.reverse with
  | some g => g
  | none => st.userNsFallback

/-- The loop inside `SpyderShell.context_locals`: scanning from the top, a
`SpyderPdb` with a current frame returns `curframe_locals` when no frame was
given or the given frame is its `curframe`; a `NamespaceManager` returns
`ns_locals` only when no frame was given. -/
def ctxScan (heap : List (Nat × SessObj)) (fr : Option Frame) :
    List Nat → Option Nat
  | [] => none
  | i :: rest =>
    match alookup heap i with
    | some (SessObj.pdb p) =>
      match p.curframe with
      | some cf =>
        if fr = none ∨ fr = some cf then some p.curframe_locals
        else ctxScan heap fr rest
      | none => ctxScan heap fr rest
    | some (SessObj.nsmgr m) =>
      if fr = none then some m.ns_locals else ctxScan heap fr rest
    | none => ctxScan heap fr rest

/-- Source `SpyderShell.context_locals`: after the loop, a given frame falls back to
its own `f_locals`; with no frame the result is `None`. -/
def context_locals (fr : Option Frame) (st : ShellState) : Option Nat :=
  match ctxScan st.heap fr st.namespace_stack.reverse with
  | some nid => some nid
  | none =>
    match fr with
    | some f => some f.f_locals
    | none => none

/-- Dereference a namespace identifier to its dict (the identifier always
exists for a live Python object; a dangling identifier yields `[]`). -/
def nsDeref (st : ShellState) (nid : Nat) : Dict :=
  match alookup st.nsheap nid with
  | some d => d
  | none => []

/-- Python `setattr(self.pdb_session, key, value)` for a configuration key: update the
attribute dict of the session object (a `NamespaceManager` is untouched; only
`SpyderPdb` objects are ever the target here). -/
def confSetObj (key : String) (v : Nat) : SessObj → SessObj
  | SessObj.pdb p => SessObj.pdb { p with conf := ainsert p.conf key v }
  | SessObj.nsmgr m => SessObj.nsmgr m

/-- Apply `confSetObj` to the session object with identifier `i`. -/
def setattrPdbConf (i : Nat) (key : String) (v : Nat) (st : ShellState) :
    ShellState :=
  { st with heap := amodify st.heap i (confSetObj key v) }

/-- One iteration of the loop in `SpyderShell.set_pdb_configuration`: if the
key is in the given `pdb_conf` dict, store it in `self._pdb_conf` and, if a
pdb session is active, `setattr` it on that session. -/
def setPdbConfStep (conf : Dict) (st : ShellState) (key : String) : ShellState :=
  match alookup conf key with
  | some v =>
    let st1 := { st with pdb_conf := ainsert st.pdb_conf key v }
    match pdb_session st1 with
    | some i => setattrPdbConf i key v st1
    | none => st1
  | none => st

/-- Source `SpyderShell.set_pdb_configuration`. -/
def set_pdb_configuration (conf : Dict) (st : ShellState) : ShellState :=
  PDB_CONF_KEYS.foldl (setPdbConfStep conf) st

/-- Source `SpyderShell.add_pdb_session`: no-op when the object already is the
current `pdb_session`; else append it and reapply the configuration. -/
def add_pdb_session (i : Nat) (st : ShellState) : ShellState :=
  if pdb_session st = some i then st
  else
    let st1 := { st with namespace_stack := st.namespace_stack ++ [i] }
    set_pdb_configuration st1.pdb_conf st1

/-- Source `SpyderShell.remove_pdb_session`: no-op when the object is not the current
`pdb_session`; else pop the top of the stack and, if a pdb session remains,
reapply the configuration to it. -/
def remove_pdb_session (i : Nat) (st : ShellState) : ShellState :=
  if pdb_session st ≠ some i then st
  else
    let st1 := { st with namespace_stack := st.namespace_stack.dropLast }
    if (pdb_session st1).isSome then set_pdb_configuration st1.pdb_conf st1
    else st1

/-- Source `SpyderShell.add_namespace_manager`. -/
def add_namespace_manager (i : Nat) (st : ShellState) : ShellState :=
  { st with namespace_stack := st.namespace_stack ++ [i] }

/-- Source `SpyderShell.remove_namespace_manager`: reads `self._namespace_stack[-1]`
first, which raises `IndexError` on an empty stack; a non-top argument is
logged and ignored. -/
def remove_namespace_manager (i : Nat) (st : ShellState) :
    Except String ShellState :=
  match st.namespace_stack.getLast? with
  | none => Except.error "IndexError"
  | some top =>
    if top ≠ i then Except.ok st
    else Except.ok { st with namespace_stack := st.namespace_stack.dropLast }

/-- Modelled from the spec: `SpyderPdb.interrupt` (in
`spyder_kernels/customize/spyderpdb.py`, which is not under `src/`) marks the
session as interrupting ("otherwise mark the session as interrupting"). -/
def interruptSession (i : Nat) (st : ShellState) : ShellState :=
  { st with
    heap := amodify st.heap i (fun o =>
      match o with
      | SessObj.pdb p => SessObj.pdb { p with interrupting := true }
      | o => o) }

/-- Modelled from the spec: a freshly constructed `SpyderPdb()` (the class is
not under `src/`) starts with no current frame and is not interrupting. -/
def newSpyderPdb : PdbState :=
  { curframe := none, curframe_locals := 0, interrupting := false,
    allow_kbdint := false, conf := [] }

/-- The outcome of one delivery of SIGINT to
`SpyderShell.spyderkernel_sigint_handler`: whether `KeyboardInterrupt` was
raised, the state afterwards, the debugger sessions constructed during the
call, and the `set_trace` calls issued (recorded as effects; `set_trace` is
debugger machinery outside this file). -/
structure SigintResult where
  raised : Bool
  st : ShellState
  newSessions : List Nat
  setTraceCalls : List (Nat × Frame)
deriving DecidableEq

/-- Source `SpyderShell.spyderkernel_sigint_handler`. -/
def spyderkernel_sigint_handler (fr : Frame) (st : ShellState) : SigintResult :=
  if st.request_pdb_stop then
    -- SIGINT called from request_pdb_stop
    let i := st.next_id
    let st1 := { st with request_pdb_stop := false,
                         heap := (i, SessObj.pdb newSpyderPdb) :: st.heap,
                         next_id := i + 1 }
    let st2 := interruptSession i st1
    -- debugger.set_trace(frame), recorded as an effect
    { raised := false, st := st2, newSessions := [i], setTraceCalls := [(i, fr)] }
  else
    match pdbSessionFull st with
    | some (i, p) =>
      if p.allow_kbdint then
        { raised := true, st := st, newSessions := [], setTraceCalls := [] }
      else if p.interrupting then
        -- second call to interrupt, raise
        { raised := true, st := st, newSessions := [], setTraceCalls := [] }
      else
        { raised := false, st := interruptSession i st, newSessions := [],
          setTraceCalls := [] }
    | none =>
      if st.allow_kbdint then
        { raised := true, st := st, newSessions := [], setTraceCalls := [] }
      else
        { raised := false, st := st, newSessions := [], setTraceCalls := [] }

/-- What the body of `SpyderShell.run_code` (the call to the host shell's
`run_code`, an external collaborator) did: returned normally or raised the
named exception. -/
inductive BodyOutcome : Type
  | ok
  | raisedExc (e : String)
deriving DecidableEq

/-- The observable outcome of `SpyderShell.run_code`: returned, displayed a
traceback (`self.showtraceback()`), or propagated the named exception. -/
inductive RunResult : Type
  | returned
  | tracebackShown
  | raised (e : String)
deriving DecidableEq

/-- Source `SpyderShell.run_code`: sets `self._allow_kbdint` around the host call
(`try/finally`), catches `KeyboardInterrupt` and shows a traceback instead of
propagating it.  The host call is the parameter `body`, applied to the state
it runs in. -/
def run_code (body : ShellState → ShellState × BodyOutcome) (st : ShellState) :
    ShellState × RunResult :=
  let r := body { st with allow_kbdint := true }
  let st2 := { r.1 with allow_kbdint := false }
  match r.2 with
  | BodyOutcome.ok => (st2, RunResult.returned)
  | BodyOutcome.raisedExc e =>
    if e = "KeyboardInterrupt" then (st2, RunResult.tracebackShown)
    else (st2, RunResult.raised e)

/-- Python `s.startswith(pre)`. -/
def pyStartswith (s pre : String) : Bool := pre.toList.isPrefixOf s.toList

/-- Whether `needle` occurs as a contiguous run inside `hay`. -/
def containsRun (needle : List Char) : List Char → Bool
  | [] => needle.isEmpty
  | c :: rest => needle.isPrefixOf (c :: rest) || containsRun needle rest

/-- Python `sub in s` (substring containment). -/
def strContains (s sub : String) : Bool := containsRun sub.toList s.toList

/-- Source `self._disabled_pkg_managers`. -/
def disabled_pkg_managers : List String :=
  ["conda", "mamba", "micromamba", "pip", "pixi", "uv"]

/-- An apostrophe character, for message texts. -/
def apos : String := String.singleton (Char.ofNat 39)

/-- Source `self._disable_pkg_managers_msg` (the Python source spells a literal
backslash-n at the start). -/
def disable_pkg_managers_msg : String :=
  "\\nInstalling packages through the IPython console doesn" ++ apos ++
  "t work reliably in Spyder. Please use a system terminal to do that, " ++
  "i.e. cmd.exe on Windows, Terminal on macOS or xterm on Linux."

/-- The single replacement line `f'print("{msg}")'` of `_do_input_cleanup`. -/
def pkgWarnLine : String :=
  "print(" ++ "\"" ++ disable_pkg_managers_msg ++ "\")"

/-- The per-line test of `_do_input_cleanup`:
`any(line.startswith(f"{prefix}{command}") for prefix, command in
itertools.product(["%", "!"], self._disabled_pkg_managers))`. -/
def lineIsDisabledPkg (line : String) : Bool :=
  (["%", "!"].product disabled_pkg_managers).any
    (fun pc => pyStartswith line (pc.1 ++ pc.2))

/-- The loop of `SpyderShell._do_input_cleanup`: the first matching line
replaces the whole batch; if none matches the original lines are returned. -/
def inputCleanupLoop (orig : List String) : List String → List String
  | [] => orig
  | l :: rest =>
    if lineIsDisabledPkg l then [pkgWarnLine] else inputCleanupLoop orig rest

/-- Source `SpyderShell._do_input_cleanup`. -/
def do_input_cleanup (lines : List String) : List String :=
  inputCleanupLoop lines lines

/-- The exception type reaching `SpyderShell._showtraceback`: `bdb.BdbQuit`
or any other type (by name). -/
inductive EType : Type
  | bdbQuit
  | other (name : String)
deriving DecidableEq

/-- Source `self._package_locations`; `os.path.join` modelled with the POSIX
separator. -/
def package_locations : List String :=
  ["site-packages/spyder_kernels",
   "external-deps/spyder-kernels/spyder_kernels"]

/-- Python `re.match(r"File (.*)", line)`: an anchored match of the literal
`"File "` followed by `.*` succeeds exactly when the line starts with
`"File "`. -/
def matchesVerboseFilePat (line : String) : Bool :=
  pyStartswith line "File "

/-- Python `re.match` of the plain-mode pattern: the line starts with the
escape character and `[`, and `"  File "` occurs after them before any
newline (`.` does not match a newline; `re.match` needs only a prefix). -/
def matchesPlainFilePat (line : String) : Bool :=
  match line.toList with
  | c1 :: c2 :: rest =>
    c1 = Char.ofNat 27 && c2 = '[' &&
      containsRun "  File ".toList (rest.takeWhile (fun c => c ≠ '\n'))
  | _ => false

/-- The skip condition of the loop in `_showtraceback`: a file-location line
(verbose or plain rendering) that mentions a Spyder-kernels install
location. -/
def tracebackLineSkipped (line : String) : Bool :=
  (matchesVerboseFilePat line || matchesPlainFilePat line) &&
    package_locations.any (fun loc => strContains line loc)

/-- The filtering loop of `_showtraceback` over the formatted lines. -/
def stbFilterLoop : List String → List String
  | [] => []
  | l :: rest =>
    if tracebackLineSkipped l then stbFilterLoop rest
    else l :: stbFilterLoop rest

/-- Source `SpyderShell._showtraceback`: the `spyder_stb` list handed to the host
shell.  For `bdb.BdbQuit` it is `['']`; otherwise internal file-location
lines are skipped. -/
def showtracebackFiltered (etype : EType) (stb : List String) : List String :=
  match etype with
  | EType.bdbQuit => [""]
  | EType.other _ => stbFilterLoop stb

/-- Source `SpyderShell._get_current_namespace`: returns the built dict and the
state after the call (the function only reads). -/
def get_current_namespace (with_magics : Bool) (fr : Option Frame)
    (st : ShellState) : Dict × ShellState :=
  match fr with
  | some f =>
    -- ns = frame.f_globals.copy(); ns.update(self.context_locals(frame))
    match context_locals (some f) st with
    | some nid => (dupdate (nsDeref st f.f_globals) (nsDeref st nid), st)
    | none =>
      -- unreachable: context_locals with a frame always yields a dict
      (nsDeref st f.f_globals, st)
  | none =>
    -- ns = {}; ns.update(self.user_ns)
    let ns1 := dupdate [] (nsDeref st (user_ns st))
    -- if context_locals: ns.update(context_locals)  (dict truthiness)
    let ns2 :=
      match context_locals none st with
      | some nid =>
        if nsDeref st nid = [] then ns1 else dupdate ns1 (nsDeref st nid)
      | none => ns1
    let ns3 :=
      if with_magics then dupdate (dupdate ns2 st.magics_line) st.magics_cell
      else ns2
    (ns3, st)

/-- Attribute lookup on the session object `i`: the value of configuration
key `key` on the `SpyderPdb` with identifier `i`, if any. -/
def confLookup (st : ShellState) (i : Nat) (key : String) : Option Nat :=
  match alookup st.heap i with
  | some (SessObj.pdb p) => alookup p.conf key
  | _ => none

/-- The dict that `self.context_locals()` (no frame) denotes, or the empty
dict when it is `None`. -/
def ctxDict (st : ShellState) : Dict :=
  match context_locals none st with
  | some nid => nsDeref st nid
  | none => []

/-- Claim C1 as written: the namespace of the most-recently-pushed debugger
session with a current frame, regardless of namespace managers above it.
First scan: frame globals of the topmost `SpyderPdb` with a frame. -/
def scanPdbWithFrame (heap : List (Nat × SessObj)) : List Nat → Option Nat
  | [] => none
  | i :: rest =>
    match alookup heap i with
    | some (SessObj.pdb p) =>
      match p.curframe with
      | some cf => some cf.f_globals
      | none => scanPdbWithFrame heap rest
    | _ => scanPdbWithFrame heap rest

/-- Claim C1 as written, second scan: `ns_globals` of the topmost
`NamespaceManager`. -/
def scanNsMgr (heap : List (Nat × SessObj)) : List Nat → Option Nat
  | [] => none
  | i :: rest =>
    match alookup heap i with
    | some (SessObj.nsmgr m) => some m.ns_globals
    | _ => scanNsMgr heap rest

/-- Claim C1 as written: the frame globals of the most-recently-pushed
debugger session that has a current frame; else the globals of the
most-recently-pushed namespace manager; else the fallback. -/
def claimC1UserNs (st : ShellState) : Nat :=
  match scanPdbWithFrame st.heap st.namespace_stack.reverse with
  | some g => g
  | none =>
    match scanNsMgr st.heap st.namespace_stack.reverse with
    | some g => g
    | none => st.userNsFallback

/-- The namespace a single stack entry supplies, for the amended C1: a
debugger session supplies its frame globals only when it has a current frame,
a namespace manager always supplies its `ns_globals`. -/
def resolvesNs (heap : List (Nat × SessObj)) (i : Nat) : Option Nat :=
  match alookup heap i with
  | some (SessObj.pdb p) => p.curframe.map Frame.f_globals
  | some (SessObj.nsmgr m) => some m.ns_globals
  | none => none

/-- Amended C1 resolution: the first entry from the top of the stack that
supplies a namespace wins (frameless debugger sessions are skipped, and a
namespace manager pushed above a debugger-with-frame shadows it); with no
such entry the persistent fallback is used. -/
def amendedUserNs (st : ShellState) : Nat :=
  match st.namespace_stack.reverse.findSome? (resolvesNs st.heap) with
  | some g => g
  | none => st.userNsFallback

/-- The removal condition of claim C7, stated as the spec words it: the line
matches a file-location pattern (verbose or plain rendering style) and
contains one of the internal installation path substrings. -/
def specTracebackRemoved (line : String) : Prop :=
  (matchesVerboseFilePat line = true ∨ matchesPlainFilePat line = true) ∧
  ∃ loc ∈ package_locations, strContains line loc = true

instance (line : String) : Decidable (specTracebackRemoved line) := by
  unfold specTracebackRemoved
  infer_instance

/-- A frame used by the concrete example states. -/
def demoFrame : Frame := { fid := 0, f_globals := 10, f_locals := 11 }

/-- A debugger session stopped at `demoFrame`. -/
def demoPdb : PdbState :=
  { curframe := some demoFrame, curframe_locals := 11, interrupting := false,
    allow_kbdint := false, conf := [] }

/-- A namespace-manager session. -/
def demoNsMgr : NsState := { ns_globals := 20, ns_locals := 21 }

/-- A concrete shell state: a debugger session (id 0, stopped at `demoFrame`)
with a namespace manager (id 1) pushed above it. -/
def demoState : ShellState :=
  { namespace_stack := [0, 1],
    heap := [(0, SessObj.pdb demoPdb), (1, SessObj.nsmgr demoNsMgr)],
    nsheap := [(10, [("a", 1)]), (11, [("b", 2)]), (20, [("c", 3)]),
               (21, [("d", 4)]), (30, [("e", 5)])],
    request_pdb_stop := false,
    allow_kbdint := false,
    pdb_conf := [("breakpoints", 7)],
    userNsFallback := 30,
    magics_line := [("lm", 8)],
    magics_cell := [("cm", 9)],
    next_id := 5 }

/-- A concrete shell state with an empty namespace stack. -/
def emptyStackState : ShellState :=
  { demoState with namespace_stack := [] }

/-- A concrete shell state whose only stack entry is the debugger session. -/
def pdbOnlyState : ShellState :=
  { demoState with namespace_stack := [0] }

/-- A second debugger session, not yet on the stack (id 2 in
`twoPdbState`). -/
def demoPdb2 : PdbState :=
  { curframe := none, curframe_locals := 0, interrupting := false,
    allow_kbdint := false, conf := [] }

/-- A concrete state with the debugger session 0 active and a second debugger
object (id 2) in existence but not on the stack. -/
def twoPdbState : ShellState :=
  { demoState with
    namespace_stack := [0],
    heap := [(0, SessObj.pdb demoPdb), (1, SessObj.nsmgr demoNsMgr),
             (2, SessObj.pdb demoPdb2)] }

/-- A host-shell body (for `run_code`) that raises `KeyboardInterrupt`. -/
def kbdintBody : ShellState → ShellState × BodyOutcome :=
  fun s => (s, BodyOutcome.raisedExc "KeyboardInterrupt")

end SpyderShell

namespace SpyderShell

theorem alookup_ainsert_self {κ β : Type} [DecidableEq κ]
    (d : List (κ × β)) (k : κ) (v : β) : alookup (ainsert d k v) k = some v := by
  induction d with
  | nil => simp [ainsert, alookup]
  | cons kv rest ih =>
    obtain ⟨k1, v1⟩ := kv
    by_cases h : k1 = k
    · subst h
      simp [ainsert, alookup]
    · simp [ainsert, alookup, h, ih]

theorem alookup_ainsert_other {κ β : Type} [DecidableEq κ]
    (d : List (κ × β)) (k k2 : κ) (v : β) (h : k ≠ k2) :
    alookup (ainsert d k2 v) k = alookup d k := by
  have hne : ¬ (k2 = k) := fun hh => h hh.symm
  induction d with
  | nil => simp [ainsert, alookup, hne]
  | cons kv rest ih =>
    obtain ⟨k1, v1⟩ := kv
    by_cases h1 : k1 = k2
    · subst h1
      simp [ainsert, alookup, hne]
    · by_cases h2 : k1 = k
      · subst h2
        simp [ainsert, alookup, h1]
      · simp [ainsert, alookup, h1, h2, ih]

theorem alookup_amodify_self {κ β : Type} [DecidableEq κ]
    (d : List (κ × β)) (k : κ) (f : β → β) :
    alookup (amodify d k f) k = (alookup d k).map f := by
  induction d with
  | nil => simp [amodify, alookup]
  | cons kv rest ih =>
    obtain ⟨k1, v1⟩ := kv
    by_cases h : k1 = k
    · subst h
      simp [amodify, alookup]
    · simp [amodify, alookup, h, ih]

theorem alookup_amodify_other {κ β : Type} [DecidableEq κ]
    (d : List (κ × β)) (k j : κ) (f : β → β) (h : k ≠ j) :
    alookup (amodify d j f) k = alookup d k := by
  have hne : ¬ (j = k) := fun hh => h hh.symm
  induction d with
  | nil => simp [amodify, alookup]
  | cons kv rest ih =>
    obtain ⟨k1, v1⟩ := kv
    by_cases h1 : k1 = j
    · subst h1
      simp [amodify, alookup, hne]
    · by_cases h2 : k1 = k
      · subst h2
        simp [amodify, alookup, h1]
      · simp [amodify, alookup, h1, h2, ih]

theorem alookup_eq_none_of_not_mem {κ β : Type} [DecidableEq κ]
    (d : List (κ × β)) (k : κ) (h : k ∉ d.map Prod.fst) : alookup d k = none := by
  induction d with
  | nil => simp [alookup]
  | cons kv rest ih =>
    obtain ⟨k1, v1⟩ := kv
    simp only [List.map_cons, List.mem_cons, not_or] at h
    have hne : ¬ (k1 = k) := fun hh => h.1 hh.symm
    simp [alookup, hne, ih h.2]

theorem oalt_none_right {β : Type} (a : Option β) : oalt a none = a := by
  cases a <;> rfl

theorem oalt_assoc {β : Type} (a b c : Option β) :
    oalt (oalt a b) c = oalt a (oalt b c) := by
  cases a <;> cases b <;> rfl

theorem alookup_dupdate (d e : Dict) (k : String) (he : NodupKeys e) :
    alookup (dupdate d e) k = oalt (alookup e k) (alookup d k) := by
  induction e generalizing d with
  | nil => simp [dupdate, alookup, oalt]
  | cons kv rest ih =>
    obtain ⟨k1, v1⟩ := kv
    have hnd : NodupKeys rest := by
      simpa [NodupKeys] using (List.nodup_cons.mp he).2
    have hnm : k1 ∉ rest.map Prod.fst := by
      simpa [NodupKeys] using (List.nodup_cons.mp he).1
    have hstep : dupdate d ((k1, v1) :: rest) = dupdate (ainsert d k1 v1) rest := by
      simp [dupdate]
    rw [hstep, ih _ hnd]
    by_cases h : k1 = k
    · subst h
      rw [alookup_eq_none_of_not_mem rest k1 hnm]
      simp [alookup, oalt, alookup_ainsert_self]
    · simp [alookup, h, alookup_ainsert_other d k k1 v1 (fun hh => h hh.symm)]

end SpyderShell

namespace SpyderShell

theorem findPdb_sound (heap : List (Nat × SessObj)) (l : List Nat)
    (i : Nat) (p : PdbState) (h : findPdb heap l = some (i, p)) :
    alookup heap i = some (SessObj.pdb p) := by
  induction l with
  | nil => simp [findPdb] at h
  | cons j rest ih =>
    unfold findPdb at h
    cases hj : alookup heap j with
    | none =>
      rw [hj] at h
      exact ih h
    | some o =>
      cases o with
      | pdb q =>
        rw [hj] at h
        simp at h
        obtain ⟨h1, h2⟩ := h
        subst h1
        subst h2
        exact hj
      | nsmgr m =>
        rw [hj] at h
        exact ih h

theorem alookup_amodify_point {κ β : Type} [DecidableEq κ]
    (d : List (κ × β)) (k j : κ) (f : β → β) :
    alookup (amodify d j f) k =
      if k = j then (alookup d k).map f else alookup d k := by
  by_cases h : k = j
  · subst h
    simp [alookup_amodify_self]
  · simp [h, alookup_amodify_other d k j f h]

theorem findPdb_fst_amodify_conf (heap : List (Nat × SessObj)) (i : Nat)
    (key : String) (v : Nat) (l : List Nat) :
    (findPdb (amodify heap i (confSetObj key v)) l).map Prod.fst =
      (findPdb heap l).map Prod.fst := by
  induction l with
  | nil => simp [findPdb]
  | cons j rest ih =>
    unfold findPdb
    rw [alookup_amodify_point heap j i (confSetObj key v)]
    by_cases hj : j = i
    · subst hj
      cases hl : alookup heap j with
      | none => simpa using ih
      | some o =>
        cases o with
        | pdb q => simp [confSetObj]
        | nsmgr m => simpa [confSetObj] using ih
    · rw [if_neg hj]
      cases hl : alookup heap j with
      | none => exact ih
      | some o =>
        cases o with
        | pdb q => simp
        | nsmgr m => exact ih

theorem pdb_session_setattr (i : Nat) (key : String) (v : Nat)
    (st : ShellState) :
    pdb_session (setattrPdbConf i key v st) = pdb_session st := by
  unfold pdb_session pdbSessionFull setattrPdbConf
  exact findPdb_fst_amodify_conf st.heap i key v st.namespace_stack.reverse

theorem stack_setattr (i : Nat) (key : String) (v : Nat) (st : ShellState) :
    (setattrPdbConf i key v st).namespace_stack = st.namespace_stack := rfl

theorem pdb_session_step (conf : Dict) (st : ShellState) (key : String) :
    pdb_session (setPdbConfStep conf st key) = pdb_session st := by
  cases hc : alookup conf key with
  | none => simp [setPdbConfStep, hc]
  | some v =>
    simp only [setPdbConfStep, hc]
    cases hp : pdb_session { st with pdb_conf := ainsert st.pdb_conf key v } with
    | none =>
      simp only [hp]
      exact hp.symm
    | some i =>
      simp only [hp]
      exact pdb_session_setattr i key v _

theorem stack_step (conf : Dict) (st : ShellState) (key : String) :
    (setPdbConfStep conf st key).namespace_stack = st.namespace_stack := by
  cases hc : alookup conf key with
  | none => simp [setPdbConfStep, hc]
  | some v =>
    simp only [setPdbConfStep, hc]
    cases hp : pdb_session { st with pdb_conf := ainsert st.pdb_conf key v } with
    | none =>
      simp only [hp]
    | some i =>
      simp only [hp]
      rfl

theorem pdb_session_fold (conf : Dict) (ks : List String) (st : ShellState) :
    pdb_session (List.foldl (setPdbConfStep conf) st ks) = pdb_session st := by
  induction ks generalizing st with
  | nil => rfl
  | cons k rest ih =>
    simp only [List.foldl_cons]
    rw [ih, pdb_session_step]

theorem pdb_session_set_conf (conf : Dict) (st : ShellState) :
    pdb_session (set_pdb_configuration conf st) = pdb_session st :=
  pdb_session_fold conf PDB_CONF_KEYS st

end SpyderShell

namespace SpyderShell

theorem pdb_session_heap (st : ShellState) (i : Nat) (h : pdb_session st = some i) :
    ∃ p, alookup st.heap i = some (SessObj.pdb p) := by
  unfold pdb_session at h
  cases hfull : pdbSessionFull st with
  | none =>
    rw [hfull] at h
    simp at h
  | some pr =>
    rw [hfull] at h
    simp at h
    refine ⟨pr.2, ?_⟩
    rw [← h]
    exact findPdb_sound st.heap st.namespace_stack.reverse pr.1 pr.2 hfull

theorem confLookup_setattr_self (st : ShellState) (i : Nat) (key : String)
    (v : Nat) (p : PdbState) (h : alookup st.heap i = some (SessObj.pdb p)) :
    confLookup (setattrPdbConf i key v st) i key = some v := by
  unfold confLookup setattrPdbConf
  simp [alookup_amodify_self, h, confSetObj, alookup_ainsert_self]

theorem conf_step_sets (conf : Dict) (st : ShellState) (i : Nat) (key : String)
    (v : Nat) (hp : pdb_session st = some i) (hc : alookup conf key = some v) :
    confLookup (setPdbConfStep conf st key) i key = some v := by
  simp only [setPdbConfStep, hc]
  have hp1 : pdb_session { st with pdb_conf := ainsert st.pdb_conf key v } =
      some i := hp
  simp only [hp1]
  obtain ⟨p, hheap⟩ := pdb_session_heap st i hp
  exact confLookup_setattr_self _ i key v p hheap

theorem conf_step_keeps (conf : Dict) (st : ShellState) (i : Nat)
    (key key2 : String) (hne : key ≠ key2) :
    confLookup (setPdbConfStep conf st key2) i key = confLookup st i key := by
  cases hc : alookup conf key2 with
  | none => simp [setPdbConfStep, hc]
  | some v =>
    simp only [setPdbConfStep, hc]
    cases hp : pdb_session { st with pdb_conf := ainsert st.pdb_conf key2 v } with
    | none =>
      simp only [hp]
      rfl
    | some j =>
      simp only [hp]
      unfold confLookup setattrPdbConf
      rw [alookup_amodify_point]
      by_cases hij : i = j
      · subst hij
        cases hh : alookup st.heap i with
        | none => simp [hh]
        | some o =>
          cases o with
          | pdb p =>
            simp [hh, confSetObj, alookup_ainsert_other p.conf key key2 v hne]
          | nsmgr m => simp [hh, confSetObj]
      · simp [hij]

theorem conf_fold_preserve (conf : Dict) (i : Nat) (key : String) (v : Nat)
    (ks : List String) :
    ∀ st : ShellState, pdb_session st = some i → alookup conf key = some v →
      confLookup st i key = some v →
      confLookup (List.foldl (setPdbConfStep conf) st ks) i key = some v := by
  induction ks with
  | nil =>
    intro st _ _ h
    simpa using h
  | cons k2 rest ih =>
    intro st hp hc hcur
    simp only [List.foldl_cons]
    by_cases hk : key = k2
    · subst hk
      exact ih _ (by rw [pdb_session_step]; exact hp) hc
        (conf_step_sets conf st i key v hp hc)
    · exact ih _ (by rw [pdb_session_step]; exact hp) hc
        (by rw [conf_step_keeps conf st i key k2 hk]; exact hcur)

theorem conf_fold_mem (conf : Dict) (i : Nat) (key : String) (v : Nat)
    (ks : List String) :
    ∀ st : ShellState, pdb_session st = some i → key ∈ ks →
      alookup conf key = some v →
      confLookup (List.foldl (setPdbConfStep conf) st ks) i key = some v := by
  induction ks with
  | nil =>
    intro st _ hmem _
    simp at hmem
  | cons k2 rest ih =>
    intro st hp hmem hc
    simp only [List.foldl_cons]
    by_cases hk : key = k2
    · subst hk
      exact conf_fold_preserve conf i key v rest _
        (by rw [pdb_session_step]; exact hp) hc
        (conf_step_sets conf st i key v hp hc)
    · have hmem2 : key ∈ rest := by
        rcases List.mem_cons.mp hmem with h | h
        · exact absurd h hk
        · exact h
      exact ih _ (by rw [pdb_session_step]; exact hp) hmem2 hc

theorem conf_set_mem (conf : Dict) (st : ShellState) (i : Nat) (key : String)
    (v : Nat) (hp : pdb_session st = some i) (hmem : key ∈ PDB_CONF_KEYS)
    (hc : alookup conf key = some v) :
    confLookup (set_pdb_configuration conf st) i key = some v :=
  conf_fold_mem conf i key v PDB_CONF_KEYS st hp hmem hc

end SpyderShell

namespace SpyderShell

theorem userNsScan_eq_findSome (heap : List (Nat × SessObj)) (l : List Nat) :
    userNsScan heap l = l.findSome? (resolvesNs heap) := by
  induction l with
  | nil => rfl
  | cons i rest ih =>
    unfold userNsScan
    rw [List.findSome?_cons]
    cases h : alookup heap i with
    | none => simp [resolvesNs, h, ih]
    | some o =>
      cases o with
      | pdb p =>
        cases hc : p.curframe with
        | none => simp [resolvesNs, h, hc, ih]
        | some cf => simp [resolvesNs, h, hc]
      | nsmgr m => simp [resolvesNs, h]

/-- Claim C1, amended: reading `user_ns` scans the namespace stack from the
most recently pushed entry down and returns the namespace supplied by the
FIRST entry that supplies one — the frame globals of a debugger session that
has a current frame, or the `ns_globals` of a namespace manager, whichever
comes first; debugger sessions without a current frame are skipped; if no
entry supplies a namespace the persistent fallback user namespace is
returned.  (The original claim gave debugger-with-frame sessions priority
over namespace managers regardless of stack order, which the code does not
do.) -/
theorem claimC1_amended (st : ShellState) : user_ns st = amendedUserNs st := by
  unfold user_ns amendedUserNs
  rw [userNsScan_eq_findSome]

/-- Claim C1 counterexample: with a debugger session stopped at a frame
(globals namespace 10) below a namespace manager (globals namespace 20) on
the stack, `user_ns` returns the namespace manager's globals, while the
claim as stated requires the debugger frame's globals. -/
theorem claimC1_counterexample :
    user_ns demoState = 20 ∧ claimC1UserNs demoState = 10 ∧
      user_ns demoState ≠ claimC1UserNs demoState := by
  decide

/-- Claim C2, amended: `remove_namespace_manager` of an entry that is not the
top of a NONEMPTY stack leaves the stack unchanged (only a debug message is
logged), but on an empty stack the `self._namespace_stack[-1]` read raises
`IndexError`; `remove_pdb_session` is a no-op (never raising) whenever its
argument is not the current `pdb_session` — the topmost debugger entry —
including on an empty stack; when its argument IS the current `pdb_session`
it pops the top stack entry, which need not be that argument. -/
theorem claimC2_amended (st : ShellState) (i : Nat) :
    (st.namespace_stack = [] →
      remove_namespace_manager i st = Except.error "IndexError") ∧
    (∀ t, st.namespace_stack.getLast? = some t → t ≠ i →
      remove_namespace_manager i st = Except.ok st) ∧
    (pdb_session st ≠ some i → remove_pdb_session i st = st) := by
  refine ⟨?_, ?_, ?_⟩
  · intro h
    unfold remove_namespace_manager
    rw [h]
    rfl
  · intro t ht hne
    unfold remove_namespace_manager
    rw [ht]
    simp [hne]
  · intro h
    unfold remove_pdb_session
    simp [h]

theorem claimC2_amended_witness :
    remove_namespace_manager 0 emptyStackState = Except.error "IndexError" ∧
    remove_namespace_manager 0 demoState = Except.ok demoState ∧
    remove_pdb_session 1 demoState = demoState :=
  ⟨(claimC2_amended emptyStackState 0).1 rfl,
   (claimC2_amended demoState 0).2.1 1 rfl (by decide),
   (claimC2_amended demoState 1).2.2 (by decide)⟩

/-- Claim C2 counterexample: popping on an empty stack raises (IndexError)
rather than being a logged no-op, and `remove_pdb_session` of the debugger
session 0 — which is NOT the top of the stack `[0, 1]` — changes the stack
(it pops the namespace manager 1). -/
theorem claimC2_counterexample :
    remove_namespace_manager 5 emptyStackState = Except.error "IndexError" ∧
    demoState.namespace_stack.getLast? = some 1 ∧
    (remove_pdb_session 0 demoState).namespace_stack = [0] ∧
    (remove_pdb_session 0 demoState).namespace_stack ≠
      demoState.namespace_stack := by
  refine ⟨rfl, rfl, rfl, by decide⟩

/-- Claim C10: pushing a debugger object equal to the currently active
`pdb_session` is a no-op: the state (in particular the namespace stack) is
unchanged and no configuration is reapplied. -/
theorem claimC10_idempotent_push (st : ShellState) (i : Nat)
    (h : pdb_session st = some i) : add_pdb_session i st = st := by
  unfold add_pdb_session
  simp [h]

theorem claimC10_witness : add_pdb_session 0 pdbOnlyState = pdbOnlyState :=
  claimC10_idempotent_push pdbOnlyState 0 (by decide)

end SpyderShell

namespace SpyderShell

theorem inputCleanupLoop_found (orig : List String) (l : List String)
    (h : ∃ x ∈ l, lineIsDisabledPkg x = true) :
    inputCleanupLoop orig l = [pkgWarnLine] := by
  induction l with
  | nil => simp at h
  | cons a rest ih =>
    unfold inputCleanupLoop
    by_cases ha : lineIsDisabledPkg a = true
    · rw [if_pos ha]
    · rw [if_neg ha]
      apply ih
      rcases h with ⟨x, hx, hpx⟩
      rcases List.mem_cons.mp hx with hh | hxr
      · subst hh
        exact absurd hpx ha
      · exact ⟨x, hxr, hpx⟩

theorem inputCleanupLoop_none (orig : List String) (l : List String)
    (h : ∀ x ∈ l, ¬ lineIsDisabledPkg x = true) :
    inputCleanupLoop orig l = orig := by
  induction l with
  | nil => rfl
  | cons a rest ih =>
    unfold inputCleanupLoop
    rw [if_neg (h a (List.mem_cons_self a rest))]
    exact ih (fun x hx => h x (List.mem_cons_of_mem a hx))

theorem lineIsDisabledPkg_iff (l : String) :
    lineIsDisabledPkg l = true ↔
      ∃ pc ∈ List.product ["%", "!"] disabled_pkg_managers,
        pyStartswith l (pc.1 ++ pc.2) = true := by
  unfold lineIsDisabledPkg
  rw [List.any_eq_true]

/-- Claim C6: if any input line starts with a prefix (`%` or `!`) followed
immediately by one of the disabled package-manager names, the whole input
batch is replaced by the single fixed warning-print line; if no line
matches, the input is returned unchanged. -/
theorem claimC6_input_cleanup (lines : List String) :
    ((∃ l ∈ lines, ∃ pc ∈ List.product ["%", "!"] disabled_pkg_managers,
        pyStartswith l (pc.1 ++ pc.2) = true) →
      do_input_cleanup lines = [pkgWarnLine]) ∧
    ((∀ l ∈ lines, ∀ pc ∈ List.product ["%", "!"] disabled_pkg_managers,
        ¬ pyStartswith l (pc.1 ++ pc.2) = true) →
      do_input_cleanup lines = lines) := by
  constructor
  · intro h
    unfold do_input_cleanup
    apply inputCleanupLoop_found
    rcases h with ⟨l, hl, hp⟩
    exact ⟨l, hl, (lineIsDisabledPkg_iff l).mpr hp⟩
  · intro h
    unfold do_input_cleanup
    apply inputCleanupLoop_none
    intro x hx hpx
    rcases (lineIsDisabledPkg_iff x).mp hpx with ⟨pc, hpc, hs⟩
    exact h x hx pc hpc hs

theorem claimC6_witness :
    do_input_cleanup ["x = 1", "%pip install numpy"] = [pkgWarnLine] ∧
    do_input_cleanup ["x = 1", "y = conda"] = ["x = 1", "y = conda"] :=
  ⟨(claimC6_input_cleanup ["x = 1", "%pip install numpy"]).1 (by decide),
   (claimC6_input_cleanup ["x = 1", "y = conda"]).2 (by decide)⟩

theorem tracebackLineSkipped_iff (l : String) :
    tracebackLineSkipped l = true ↔ specTracebackRemoved l := by
  unfold tracebackLineSkipped specTracebackRemoved
  simp [List.any_eq_true]

theorem stbFilterLoop_eq_filter (stb : List String) :
    stbFilterLoop stb = stb.filter (fun l => !(tracebackLineSkipped l)) := by
  induction stb with
  | nil => rfl
  | cons a rest ih =>
    unfold stbFilterLoop
    by_cases ha : tracebackLineSkipped a = true
    · simp [List.filter_cons, ha, ih]
    · simp [List.filter_cons, ha, ih]

/-- Claim C7, amended: for the debugger-quit exception (`BdbQuit`) the
filtered traceback is the single EMPTY LINE `[""]` (so no details are
shown), not the empty list; for any other exception type a line is removed
if and only if it matches a file-location pattern (verbose or plain
rendering style) and contains one of the internal installation path
substrings, all other lines being preserved in order. -/
theorem claimC7_amended (name : String) (stb : List String) :
    showtracebackFiltered EType.bdbQuit stb = [""] ∧
    showtracebackFiltered (EType.other name) stb =
      stb.filter (fun l => decide (¬ specTracebackRemoved l)) := by
  constructor
  · rfl
  · unfold showtracebackFiltered
    rw [stbFilterLoop_eq_filter]
    apply List.filter_congr
    intro x _
    by_cases h : specTracebackRemoved x
    · simp [h, (tracebackLineSkipped_iff x).mpr h]
    · have hb : ¬ tracebackLineSkipped x = true :=
        fun hh => h ((tracebackLineSkipped_iff x).mp hh)
      simp [h, hb]

/-- Claim C7 counterexample: for `BdbQuit` the code appends one empty string
to the filtered traceback, so the result is `[""]`, which is not the empty
list the claim describes. -/
theorem claimC7_counterexample :
    showtracebackFiltered EType.bdbQuit ["Traceback (most recent call last)"]
        = [""] ∧
      ([""] : List String) ≠ ([] : List String) :=
  ⟨rfl, by decide⟩

end SpyderShell

namespace SpyderShell

theorem sigint_no_new_sessions (fr : Frame) (st : ShellState)
    (h : st.request_pdb_stop = false) :
    (spyderkernel_sigint_handler fr st).newSessions = [] := by
  unfold spyderkernel_sigint_handler
  rw [h]
  simp only [Bool.false_eq_true, if_false]
  cases hp : pdbSessionFull st with
  | none => by_cases hk : st.allow_kbdint <;> simp [hk]
  | some pr =>
    obtain ⟨i, p⟩ := pr
    by_cases h1 : p.allow_kbdint <;> by_cases h2 : p.interrupting <;>
      simp [h1, h2]

/-- Claim C3: if the interrupt-request flag is set when the SIGINT handler
runs, the handler clears the flag, constructs exactly one new debugger
session, marks it interrupting, records a `set_trace` attachment to the
delivered frame, and returns without raising; a second delivery without the
flag being re-set constructs no further session.  (`SpyderPdb.interrupt` and
`set_trace` are modelled from the spec, their class not being under
`src/`.) -/
theorem claimC3_sigint_pdb_stop (fr : Frame) (st : ShellState)
    (h : st.request_pdb_stop = true) :
    (spyderkernel_sigint_handler fr st).raised = false ∧
    (spyderkernel_sigint_handler fr st).st.request_pdb_stop = false ∧
    (spyderkernel_sigint_handler fr st).newSessions = [st.next_id] ∧
    alookup (spyderkernel_sigint_handler fr st).st.heap st.next_id =
      some (SessObj.pdb { newSpyderPdb with interrupting := true }) ∧
    (spyderkernel_sigint_handler fr st).setTraceCalls = [(st.next_id, fr)] ∧
    (∀ fr2, (spyderkernel_sigint_handler fr2
        (spyderkernel_sigint_handler fr st).st).newSessions = []) := by
  refine ⟨?_, ?_, ?_, ?_, ?_, ?_⟩
  · simp [spyderkernel_sigint_handler, h]
  · simp [spyderkernel_sigint_handler, h, interruptSession]
  · simp [spyderkernel_sigint_handler, h]
  · simp [spyderkernel_sigint_handler, h, interruptSession, amodify, alookup]
  · simp [spyderkernel_sigint_handler, h]
  · intro fr2
    apply sigint_no_new_sessions
    simp [spyderkernel_sigint_handler, h, interruptSession]

theorem claimC3_witness :
    (spyderkernel_sigint_handler demoFrame
        { demoState with request_pdb_stop := true }).newSessions = [5] ∧
    (spyderkernel_sigint_handler demoFrame
        (spyderkernel_sigint_handler demoFrame
          { demoState with request_pdb_stop := true }).st).newSessions = [] := by
  have h := claimC3_sigint_pdb_stop demoFrame
    { demoState with request_pdb_stop := true } rfl
  exact ⟨h.2.2.1, h.2.2.2.2.2 demoFrame⟩

/-- Claim C4: with no pending pdb-stop request and an active debugger
session, the SIGINT handler raises `KeyboardInterrupt` when the session's
`allow_kbdint` flag is set; else raises when the session is already marked
interrupting; else calls the session's interrupt method — marking it
interrupting — and returns without raising.  (`SpyderPdb.interrupt` is
modelled from the spec, its class not being under `src/`.) -/
theorem claimC4_sigint_active_session (fr : Frame) (st : ShellState) (i : Nat)
    (p : PdbState) (hreq : st.request_pdb_stop = false)
    (hp : pdbSessionFull st = some (i, p)) :
    (p.allow_kbdint = true →
      spyderkernel_sigint_handler fr st =
        { raised := true, st := st, newSessions := [], setTraceCalls := [] }) ∧
    (p.allow_kbdint = false → p.interrupting = true →
      spyderkernel_sigint_handler fr st =
        { raised := true, st := st, newSessions := [], setTraceCalls := [] }) ∧
    (p.allow_kbdint = false → p.interrupting = false →
      spyderkernel_sigint_handler fr st =
        { raised := false, st := interruptSession i st, newSessions := [],
          setTraceCalls := [] } ∧
      alookup (interruptSession i st).heap i =
        some (SessObj.pdb { p with interrupting := true })) := by
  refine ⟨?_, ?_, ?_⟩
  · intro h1
    simp [spyderkernel_sigint_handler, hreq, hp, h1]
  · intro h1 h2
    simp [spyderkernel_sigint_handler, hreq, hp, h1, h2]
  · intro h1 h2
    constructor
    · simp [spyderkernel_sigint_handler, hreq, hp, h1, h2]
    · have hheap : alookup st.heap i = some (SessObj.pdb p) :=
        findPdb_sound st.heap st.namespace_stack.reverse i p hp
      simp [interruptSession, alookup_amodify_self, hheap]

theorem claimC4_witness :
    spyderkernel_sigint_handler demoFrame
        { demoState with
          namespace_stack := [0],
          heap := [(0, SessObj.pdb { demoPdb with allow_kbdint := true })] } =
      { raised := true,
        st := { demoState with
          namespace_stack := [0],
          heap := [(0, SessObj.pdb { demoPdb with allow_kbdint := true })] },
        newSessions := [], setTraceCalls := [] } :=
  (claimC4_sigint_active_session demoFrame
    { demoState with
      namespace_stack := [0],
      heap := [(0, SessObj.pdb { demoPdb with allow_kbdint := true })] }
    0 { demoPdb with allow_kbdint := true } rfl rfl).1 rfl

/-- Claim C5: with no pending pdb-stop request and no active debugger
session, the SIGINT handler raises `KeyboardInterrupt` exactly when the
transient `_allow_kbdint` flag is set and otherwise swallows the signal as a
no-op; `run_code` clears `_allow_kbdint` on every exit path and converts a
`KeyboardInterrupt` raised by the hosted execution into a traceback display
instead of propagating it. -/
theorem claimC5_kbdint_policy (fr : Frame) (st : ShellState)
    (body : ShellState → ShellState × BodyOutcome) :
    (st.request_pdb_stop = false → pdbSessionFull st = none →
      spyderkernel_sigint_handler fr st =
        { raised := st.allow_kbdint, st := st, newSessions := [],
          setTraceCalls := [] }) ∧
    ((run_code body st).1.allow_kbdint = false) ∧
    ((run_code body st).2 ≠ RunResult.raised "KeyboardInterrupt") ∧
    (∀ st1, body { st with allow_kbdint := true } =
        (st1, BodyOutcome.raisedExc "KeyboardInterrupt") →
      run_code body st =
        ({ st1 with allow_kbdint := false }, RunResult.tracebackShown)) := by
  refine ⟨?_, ?_, ?_, ?_⟩
  · intro h1 h2
    by_cases hk : st.allow_kbdint <;>
      simp [spyderkernel_sigint_handler, h1, h2, hk]
  · rcases hb : body { st with allow_kbdint := true } with ⟨st1, out⟩
    cases out with
    | ok => simp [run_code, hb]
    | raisedExc e =>
      by_cases he : e = "KeyboardInterrupt" <;> simp [run_code, hb, he]
  · rcases hb : body { st with allow_kbdint := true } with ⟨st1, out⟩
    cases out with
    | ok => simp [run_code, hb]
    | raisedExc e =>
      by_cases he : e = "KeyboardInterrupt" <;> simp [run_code, hb, he]
  · intro st1 hb
    simp [run_code, hb]

theorem claimC5_witness :
    spyderkernel_sigint_handler demoFrame emptyStackState =
      { raised := false, st := emptyStackState, newSessions := [],
        setTraceCalls := [] } ∧
    run_code kbdintBody emptyStackState =
      ({ emptyStackState with allow_kbdint := false },
        RunResult.tracebackShown) := by
  have h := claimC5_kbdint_policy demoFrame emptyStackState kbdintBody
  exact ⟨h.1 rfl rfl,
    h.2.2.2 { emptyStackState with allow_kbdint := true } rfl⟩

end SpyderShell

namespace SpyderShell

/-- Claim C8: on a real push of a debugger session, and on a pop of the
current debugger session that leaves another debugger session active, every
persisted configuration entry whose key is in `PDB_CONF_KEYS` is reapplied
as an attribute of the debugger session that becomes active. -/
theorem claimC8_conf_reapplied (st : ShellState) (i : Nat) (p : PdbState)
    (key : String) (v : Nat) :
    (alookup st.heap i = some (SessObj.pdb p) → pdb_session st ≠ some i →
      key ∈ PDB_CONF_KEYS → alookup st.pdb_conf key = some v →
      pdb_session (add_pdb_session i st) = some i ∧
      confLookup (add_pdb_session i st) i key = some v) ∧
    (∀ j, pdb_session st = some i →
      pdb_session { st with namespace_stack := st.namespace_stack.dropLast } =
        some j →
      key ∈ PDB_CONF_KEYS → alookup st.pdb_conf key = some v →
      pdb_session (remove_pdb_session i st) = some j ∧
      confLookup (remove_pdb_session i st) j key = some v) := by
  constructor
  · intro hheap hne hmem hc
    unfold add_pdb_session
    rw [if_neg hne]
    have hstA : pdb_session
        { st with namespace_stack := st.namespace_stack ++ [i] } = some i := by
      unfold pdb_session pdbSessionFull
      show (findPdb st.heap ((st.namespace_stack ++ [i]).reverse)).map
        Prod.fst = some i
      rw [List.reverse_append]
      simp only [List.reverse_singleton, List.singleton_append]
      unfold findPdb
      rw [hheap]
      rfl
    constructor
    · rw [pdb_session_set_conf]
      exact hstA
    · exact conf_set_mem _ _ i key v hstA hmem hc
  · intro j hpi hpj hmem hc
    unfold remove_pdb_session
    rw [if_neg (fun hcon => hcon hpi)]
    rw [if_pos (show (pdb_session { st with
        namespace_stack := st.namespace_stack.dropLast }).isSome = true by
      rw [hpj]; rfl)]
    constructor
    · rw [pdb_session_set_conf]
      exact hpj
    · exact conf_set_mem _ _ j key v hpj hmem hc

theorem claimC8_witness :
    pdb_session (add_pdb_session 2 twoPdbState) = some 2 ∧
    confLookup (add_pdb_session 2 twoPdbState) 2 "breakpoints" = some 7 :=
  (claimC8_conf_reapplied twoPdbState 2 demoPdb2 "breakpoints" 7).1
    rfl (by decide) (by decide) rfl

end SpyderShell

namespace SpyderShell

theorem oalt_none_left {β : Type} (b : Option β) : oalt none b = b := rfl

/-- Claim C9: `_get_current_namespace` does not mutate the shell state — the
frame's globals, the session locals and globals on the stack, and the
fallback user namespace all live in the returned state, which equals the
input state — and the dict it returns is the flattened overlay of the
globals with the context locals (and, when requested and no frame is given,
the line and cell magics), characterised pointwise by left-biased lookup. -/
theorem claimC9_snapshot (wm : Bool) (fr : Option Frame) (st : ShellState) :
    ((get_current_namespace wm fr st).2 = st) ∧
    (∀ f nid k, context_locals (some f) st = some nid →
      NodupKeys (nsDeref st nid) →
      alookup (get_current_namespace wm (some f) st).1 k =
        oalt (alookup (nsDeref st nid) k)
          (alookup (nsDeref st f.f_globals) k)) ∧
    (∀ k, NodupKeys (nsDeref st (user_ns st)) → NodupKeys (ctxDict st) →
      NodupKeys st.magics_line → NodupKeys st.magics_cell →
      alookup (get_current_namespace wm none st).1 k =
        (if wm then
          oalt (alookup st.magics_cell k)
            (oalt (alookup st.magics_line k)
              (oalt (alookup (ctxDict st) k)
                (alookup (nsDeref st (user_ns st)) k)))
        else
          oalt (alookup (ctxDict st) k)
            (alookup (nsDeref st (user_ns st)) k))) := by
  refine ⟨?_, ?_, ?_⟩
  · cases fr with
    | none => rfl
    | some f =>
      cases h : context_locals (some f) st with
      | none => simp [get_current_namespace, h]
      | some nid => simp [get_current_namespace, h]
  · intro f nid k hctx hnd
    simp only [get_current_namespace, hctx]
    exact alookup_dupdate _ _ k hnd
  · intro k hnduser hndc hndl hndcell
    have hnil : alookup ([] : Dict) k = none := rfl
    simp only [get_current_namespace]
    cases hcl : context_locals none st with
    | none =>
      have hcd : ctxDict st = [] := by
        unfold ctxDict
        rw [hcl]
      cases wm with
      | false =>
        simp only [Bool.false_eq_true, if_false]
        rw [alookup_dupdate _ _ k hnduser, hnil, oalt_none_right,
          hcd, hnil, oalt_none_left]
      | true =>
        simp only [if_true]
        rw [alookup_dupdate _ _ k hndcell, alookup_dupdate _ _ k hndl,
          alookup_dupdate _ _ k hnduser, hnil, oalt_none_right,
          hcd, hnil, oalt_none_left]
    | some nid =>
      have hcd : ctxDict st = nsDeref st nid := by
        unfold ctxDict
        rw [hcl]
      have hndc2 : NodupKeys (nsDeref st nid) := hcd ▸ hndc
      by_cases hemp : nsDeref st nid = []
      · cases wm with
        | false =>
          simp only [Bool.false_eq_true, if_false, hemp, if_pos]
          rw [alookup_dupdate _ _ k hnduser, hnil, oalt_none_right,
            hcd, hemp, hnil, oalt_none_left]
        | true =>
          simp only [if_true, hemp, if_pos]
          rw [alookup_dupdate _ _ k hndcell, alookup_dupdate _ _ k hndl,
            alookup_dupdate _ _ k hnduser, hnil, oalt_none_right,
            hcd, hemp, hnil, oalt_none_left]
      · cases wm with
        | false =>
          simp only [Bool.false_eq_true, if_false, if_neg hemp]
          rw [alookup_dupdate _ _ k hndc2, alookup_dupdate _ _ k hnduser,
            hnil, oalt_none_right, hcd]
        | true =>
          simp only [if_true, if_neg hemp]
          rw [alookup_dupdate _ _ k hndcell, alookup_dupdate _ _ k hndl,
            alookup_dupdate _ _ k hndc2, alookup_dupdate _ _ k hnduser,
            hnil, oalt_none_right, hcd]

theorem claimC9_witness :
    (get_current_namespace true none demoState).2 = demoState ∧
    alookup (get_current_namespace true none demoState).1 "d" = some 4 := by
  have h := claimC9_snapshot true none demoState
  refine ⟨h.1, ?_⟩
  rw [h.2.2 "d" (by decide) (by decide) (by decide) (by decide)]
  decide

end SpyderShell
